import Mathlib

/-!
Shallow embedding of the Express products API (server.js, the monolithic
canonical version) together with its validation middleware.

Modelling conventions:
* JavaScript runtime values that can appear in a request body are modelled by
  `JSValue`; JS numbers are idealised as exact rationals (`ℚ`), so floating
  point rounding and `NaN`/`Infinity` are outside the model.
* Handlers are pure functions from the current product store (a `List Product`)
  to a result together with the store they leave behind; a thrown error is an
  `AppError` value routed to the centralised error handler.
* `Math.max(...)` / `Math.min(...)` over the (possibly empty) price list are
  modelled with `List.max?` / `List.min?` (`none` standing for the empty-store
  `±Infinity` case); `x / 0` on rationals is Lean's `0` where JS produces a
  non-finite value, a boundary the spec leaves undefined.
-/

namespace ProductsApi

/-- A JavaScript value as it can occur in a parsed JSON request body field. -/
inductive JSValue where
  | undefined
  | null
  | boolV (b : Bool)
  | numV (q : ℚ)
  | strV (s : String)
deriving DecidableEq, Repr

/-- JS truthiness test: `undefined`, `null`, `false`, `0` and `""` are falsy. -/
def isFalsy : JSValue → Bool
  | .undefined => true
  | .null => true
  | .boolV b => !b
  | .numV q => q == 0
  | .strV s => s == ""

/-- The JS boolean coercion `Boolean(v)`. -/
def jsToBool (v : JSValue) : Bool :=
  !(isFalsy v)

/-- JS `s.trim()`: strips leading and trailing whitespace.  (Defined by
structural recursion over the character list so that concrete instances
compute.) -/
def jsStringTrim (s : String) : String :=
  (((s.toList.dropWhile Char.isWhitespace).reverse.dropWhile
      Char.isWhitespace).reverse).asString

/-- Error object thrown by middleware or a handler.  `statusCode` is `none`
for errors (such as a runtime `TypeError`) that carry no status code. -/
structure AppError where
  ename : String
  message : String
  statusCode : Option Nat
deriving DecidableEq, Repr

def notFoundError (m : String) : AppError := ⟨"NotFoundError", m, some 404⟩

def validationError (m : String) : AppError := ⟨"ValidationError", m, some 400⟩

def authenticationError (m : String) : AppError := ⟨"AuthenticationError", m, some 401⟩

/-- A runtime `TypeError` (e.g. calling `.trim()` on a non-string); it has no
`statusCode` property, so the error handler falls back to 500. -/
def typeError (m : String) : AppError := ⟨"TypeError", m, none⟩

/-- The JSON body of an error response. -/
structure ErrorEnvelope where
  success : Bool
  error : String
deriving DecidableEq, Repr

/-- The centralised error-handling middleware: status from the error's
`statusCode` defaulting to 500, message from the error. -/
def errorHandler (e : AppError) : Nat × ErrorEnvelope :=
  (e.statusCode.getD 500, ⟨false, e.message⟩)

deriving instance DecidableEq for Except

/-- The request body fields the product routes look at; an absent field is
`JSValue.undefined`. -/
structure Body where
  name : JSValue
  description : JSValue
  price : JSValue
  category : JSValue
  inStock : JSValue
deriving DecidableEq, Repr

/-- `validateProductMiddleware` from server.js: three sequential checks, the
first violated one throws a `ValidationError`; on success the request
continues with the body untouched. -/
def validateProductMiddleware (b : Body) : Except AppError Body :=
  if isFalsy b.name || isFalsy b.description || isFalsy b.price || isFalsy b.category then
    .error (validationError "Missing required fields: name, description, price, category")
  else if (match b.name with
           | .strV s => (jsStringTrim s).length == 0
           | _ => true) then
    .error (validationError "Name must be a non-empty string")
  else if (match b.price with
           | .numV q => decide (q ≤ 0)
           | _ => true) then
    .error (validationError "Price must be a positive number")
  else
    .ok b

/-- A stored product record. -/
structure Product where
  id : String
  name : String
  description : String
  price : ℚ
  category : String
  inStock : Bool
deriving DecidableEq, Repr

/-- The seeded in-memory store (`let products = [...]` in server.js). -/
def products : List Product :=
  [ { id := "1", name := "Laptop",
      description := "High-performance laptop with 16GB RAM",
      price := 1200, category := "electronics", inStock := true },
    { id := "2", name := "Smartphone",
      description := "Latest model with 128GB storage",
      price := 800, category := "electronics", inStock := true },
    { id := "3", name := "Coffee Maker",
      description := "Programmable coffee maker with timer",
      price := 50, category := "kitchen", inStock := false } ]

/-- Is `t` an initial segment of `l`?  (Helper for substring search.) -/
def leadsWith : List Char → List Char → Bool
  | [], _ => true
  | _ :: _, [] => false
  | a :: as, b :: bs => a == b && leadsWith as bs

/-- Does `t` occur contiguously inside `l`? -/
def occursIn (t : List Char) : List Char → Bool
  | [] => leadsWith t []
  | b :: bs => leadsWith t (b :: bs) || occursIn t bs

/-- JS `s.includes(t)`. -/
def strIncludes (s t : String) : Bool :=
  occursIn t.toList s.toList

/-- Clamp a JS slice index to `[0, len]` the way `Array.prototype.slice`
does (negative indices count from the end). -/
def jsSliceBound (len : Nat) (i : Int) : Nat :=
  if i < 0 then ((len : Int) + i).toNat else min i.toNat len

/-- JS `l.slice(s, e)`. -/
def jsSlice {α : Type} (l : List α) (s e : Int) : List α :=
  (l.take (jsSliceBound l.length e)).drop (jsSliceBound l.length s)

/-- Query parameters of `GET /api/products`.  `page` and `limit` hold the
`parseInt` result of the raw parameter (`none` when the parameter is absent
or does not parse, i.e. `parseInt` returned `NaN`). -/
structure ListQuery where
  category : Option String
  inStock : Option String
  search : Option String
  page : Option Int
  limit : Option Int
deriving DecidableEq, Repr

/-- `if (req.query.category) filter(...)`: case-insensitive exact category
match, skipped when the parameter is absent or empty (falsy). -/
def categoryFilter (qc : Option String) (l : List Product) : List Product :=
  match qc with
  | none => l
  | some c =>
    if c = "" then l
    else l.filter (fun p => p.category.toLower == c.toLower)

/-- `if (req.query.inStock) filter(...)`: parses `"true"` case-insensitively
to a boolean and keeps products with that exact `inStock` value. -/
def inStockFilter (qs : Option String) (l : List Product) : List Product :=
  match qs with
  | none => l
  | some s =>
    if s = "" then l
    else l.filter (fun p => p.inStock == (s.toLower == "true"))

/-- `if (req.query.search) filter(...)`: case-insensitive substring match on
the product name. -/
def searchFilter (qs : Option String) (l : List Product) : List Product :=
  match qs with
  | none => l
  | some s =>
    if s = "" then l
    else l.filter (fun p => strIncludes p.name.toLower s.toLower)

/-- The post-filter, pre-pagination set of the list handler: category, then
inStock, then search. -/
def filteredSet (store : List Product) (q : ListQuery) : List Product :=
  searchFilter q.search (inStockFilter q.inStock (categoryFilter q.category store))

/-- `parseInt(x) || d`: the default is used when `parseInt` gave `NaN`
(modelled `none`) or the falsy number `0`. -/
def jsOrDefault (v : Option Int) (d : Int) : Int :=
  match v with
  | none => d
  | some n => if n = 0 then d else n

/-- Response body of `GET /api/products`. -/
structure ListResponse where
  success : Bool
  count : Nat
  page : Int
  limit : Int
  totalPages : Int
  hasNext : Bool
  hasPrev : Bool
  data : List Product
deriving DecidableEq, Repr

/-- The `GET /api/products` handler: filters, then paginates with
`startIndex = (page-1)*limit`, `endIndex = startIndex+limit`,
`totalPages = Math.ceil(count/limit)`. -/
def listHandler (store : List Product) (q : ListQuery) : ListResponse :=
  let filtered := filteredSet store q
  let page := jsOrDefault q.page 1
  let limit := jsOrDefault q.limit 10
  let startIndex := (page - 1) * limit
  let endIndex := startIndex + limit
  { success := true
    count := filtered.length
    page := page
    limit := limit
    totalPages := Int.ceil ((filtered.length : ℚ) / (limit : ℚ))
    hasNext := decide (endIndex < (filtered.length : Int))
    hasPrev := decide (startIndex > 0)
    data := jsSlice filtered startIndex endIndex }

/-- Result of a handler: a success response with an HTTP status and payload,
or a thrown error. -/
inductive HandlerResult (α : Type) where
  | ok (status : Nat) (payload : α)
  | err (e : AppError)
deriving DecidableEq, Repr

/-- `GET /api/products/search`: requires a truthy `q`, then case-insensitive
substring match on names over the full store; returns the query, the match
count and the matches. -/
def searchProducts (q : Option String) (store : List Product) :
    HandlerResult (String × Nat × List Product) :=
  match q with
  | none => .err (validationError "Search query parameter \"q\" is required")
  | some s =>
    if s = "" then .err (validationError "Search query parameter \"q\" is required")
    else
      let results := store.filter (fun p => strIncludes p.name.toLower s.toLower)
      .ok 200 (s, results.length, results)

/-- One step of the category-count accumulation
(`if (!cats[c]) cats[c] = 0; cats[c]++`), on an association list kept in
insertion order. -/
def bumpCategory (m : List (String × Nat)) (c : String) : List (String × Nat) :=
  if m.any (fun kv => kv.1 == c) then
    m.map (fun kv => if kv.1 == c then (kv.1, kv.2 + 1) else kv)
  else
    m ++ [(c, 1)]

/-- Lookup in the category-count mapping, 0 for an absent key. -/
def categoriesCount (m : List (String × Nat)) (c : String) : Nat :=
  match m.find? (fun kv => kv.1 == c) with
  | some kv => kv.2
  | none => 0

/-- `priceStats` of the stats response. -/
structure PriceStats where
  highest : Option ℚ
  lowest : Option ℚ
  average : ℚ
deriving DecidableEq, Repr

/-- Body of the `GET /api/products/stats` response. -/
structure Stats where
  totalProducts : Nat
  totalInStock : Nat
  totalOutOfStock : Nat
  categories : List (String × Nat)
  priceStats : PriceStats
deriving DecidableEq, Repr

/-- The `GET /api/products/stats` handler, over the full unfiltered store. -/
def productStats (store : List Product) : Stats :=
  { totalProducts := store.length
    totalInStock := (store.filter (fun p => p.inStock)).length
    totalOutOfStock := (store.filter (fun p => !p.inStock)).length
    categories := store.foldl (fun m p => bumpCategory m p.category) []
    priceStats :=
      { highest := (store.map (fun p => p.price)).max?
        lowest := (store.map (fun p => p.price)).min?
        average := (store.foldl (fun s p => s + p.price) 0) / (store.length : ℚ) } }

/-- The `GET /api/products/:id` handler: first record with the given id,
else `NotFoundError`. -/
def getProductById (pid : String) (store : List Product) : HandlerResult Product :=
  match store.find? (fun p => p.id == pid) with
  | some p => .ok 200 p
  | none => .err (notFoundError "Product not found")

/-- JS `v.trim()`: succeeds exactly on strings; on any other value the
property access throws a `TypeError`. -/
def jsTrim : JSValue → Except AppError String
  | .strV s => .ok (jsStringTrim s)
  | _ => .error (typeError "trim is not a function")

/-- Extract the numeric value of a body field.  Only reached after the
validation middleware has established the field is a number. -/
def jsNum : JSValue → ℚ
  | .numV q => q
  | _ => 0

/-- The `inStock` field of a created/updated record:
`inStock = true` destructuring default for an omitted field, otherwise
`Boolean(inStock)`. -/
def inStockValue (v : JSValue) (dflt : Bool) : Bool :=
  match v with
  | .undefined => dflt
  | w => jsToBool w

/-- The `POST /api/products` handler.  `freshId` models the `uuidv4()` call.
The object literal evaluates `name.trim()`, `description.trim()`,
`category.trim()` in order; the first `TypeError` aborts before the push. -/
def createProduct (freshId : String) (b : Body) (store : List Product) :
    HandlerResult Product × List Product :=
  match jsTrim b.name with
  | .error e => (.err e, store)
  | .ok nm =>
    match jsTrim b.description with
    | .error e => (.err e, store)
    | .ok ds =>
      match jsTrim b.category with
      | .error e => (.err e, store)
      | .ok ct =>
        let p : Product :=
          { id := freshId, name := nm, description := ds,
            price := jsNum b.price, category := ct,
            inStock := inStockValue b.inStock true }
        (.ok 201 p, store ++ [p])

/-- The `PUT /api/products/:id` handler: find the index, 404 when absent,
otherwise rebuild the record (spreading the old one, so `id` is kept and
`inStock` only changes when supplied) and store it at the same index. -/
def updateProduct (pid : String) (b : Body) (store : List Product) :
    HandlerResult Product × List Product :=
  let idx := store.findIdx (fun p => p.id == pid)
  if h : idx < store.length then
    match jsTrim b.name with
    | .error e => (.err e, store)
    | .ok nm =>
      match jsTrim b.description with
      | .error e => (.err e, store)
      | .ok ds =>
        match jsTrim b.category with
        | .error e => (.err e, store)
        | .ok ct =>
          let old := store.get ⟨idx, h⟩
          let r : Product :=
            { old with
              name := nm, description := ds,
              price := jsNum b.price, category := ct,
              inStock := inStockValue b.inStock old.inStock }
          (.ok 200 r, store.set idx r)
  else
    (.err (notFoundError "Product not found"), store)

/-- The `DELETE /api/products/:id` handler: find the index, 404 when absent,
otherwise `splice` the single record out and answer with a message only. -/
def deleteProduct (pid : String) (store : List Product) :
    HandlerResult String × List Product :=
  let idx := store.findIdx (fun p => p.id == pid)
  if idx < store.length then
    (.ok 200 "Product deleted successfully", store.eraseIdx idx)
  else
    (.err (notFoundError "Product not found"), store)

/-- The `app.use('*')` catch-all: throws a `NotFoundError` naming the
unmatched path. -/
def unmatchedRouteError (originalUrl : String) : AppError :=
  notFoundError ("Route " ++ originalUrl ++ " not found")

/-- A write operation against the store, as routed through the middleware
chain: the payload of a create/update has already passed validation when the
handler runs (tracked separately by `opValid`). -/
inductive Op where
  | createOp (freshId : String) (b : Body)
  | updateOp (pid : String) (b : Body)
  | deleteOp (pid : String)

/-- The store left behind by one write operation. -/
def applyOp (store : List Product) : Op → List Product
  | .createOp fid b => (createProduct fid b store).2
  | .updateOp pid b => (updateProduct pid b store).2
  | .deleteOp pid => (deleteProduct pid store).2

/-- The store after a sequence of write operations. -/
def applyOps : List Product → List Op → List Product
  | s, [] => s
  | s, op :: rest => applyOps (applyOp s op) rest

/-- Validity of one operation against the current store: create/update
payloads passed the validation middleware, and the id generated for a create
is fresh (the `uuidv4` collision-freedom assumption). -/
def opValid (store : List Product) : Op → Prop
  | .createOp fid b => validateProductMiddleware b = .ok b ∧ fid ∉ store.map Product.id
  | .updateOp _ b => validateProductMiddleware b = .ok b
  | .deleteOp _ => True

/-- Validity of a whole operation sequence, each against the store it meets. -/
def opsValid : List Product → List Op → Prop
  | _, [] => True
  | s, op :: rest => opValid s op ∧ opsValid (applyOp s op) rest

/-- The store invariant: pairwise distinct ids and strictly positive prices. -/
def StoreInv (s : List Product) : Prop :=
  (s.map Product.id).Nodup ∧ ∀ p ∈ s, 0 < p.price

/-- A request served by one of the read-only handlers. -/
inductive ReadRequest where
  | listReq (q : ListQuery)
  | searchReq (q : Option String)
  | statsReq
  | getByIdReq (pid : String)

/-- Responses of the read-only handlers. -/
inductive ReadResponse where
  | listRes (r : ListResponse)
  | searchRes (r : HandlerResult (String × Nat × List Product))
  | statsRes (r : Stats)
  | getRes (r : HandlerResult Product)
deriving DecidableEq, Repr

/-- Dispatch of a read-only request: each handler works on the store (the
list handler on the shallow copy `[...products]`) and never writes it back;
the pair returns the response together with the store left behind. -/
def handleRead (req : ReadRequest) (store : List Product) :
    ReadResponse × List Product :=
  match req with
  | .listReq q => (.listRes (listHandler store q), store)
  | .searchReq q => (.searchRes (searchProducts q store), store)
  | .statsReq => (.statsRes (productStats store), store)
  | .getByIdReq pid => (.getRes (getProductById pid store), store)

/-! ## Helper lemmas -/

lemma leadsWith_append_self (t r : List Char) : leadsWith t (t ++ r) = true := by
  induction t with
  | nil => rfl
  | cons a as ih => simp [leadsWith, ih]

lemma occursIn_nil_left (l : List Char) : occursIn [] l = true := by
  cases l with
  | nil => rfl
  | cons b bs => simp [occursIn, leadsWith]

lemma occursIn_append (pre t r : List Char) : occursIn t (pre ++ t ++ r) = true := by
  induction pre with
  | nil =>
    cases ht : t with
    | nil => simpa [ht] using occursIn_nil_left r
    | cons a as =>
      simp only [List.nil_append, ht, List.cons_append, occursIn]
      have := leadsWith_append_self (a :: as) r
      simp only [ht] at this
      simp [List.cons_append] at this ⊢
      exact Or.inl this
  | cons x xs ih =>
    simp only [List.cons_append, occursIn, Bool.or_eq_true]
    exact Or.inr (by simpa using ih)

lemma strLength_eq_zero_iff (s : String) : s.length = 0 ↔ s = "" := by
  constructor
  · intro h
    apply String.ext
    have hd := String.length_data s
    rw [h] at hd
    simpa using List.length_eq_zero.mp hd
  · intro h; subst h; rfl

/-- Exact shape of a middleware pass: the request body is forwarded untouched
and all three checks were negative. -/
lemma validate_ok_iff (b : Body) :
    validateProductMiddleware b = .ok b ↔
      (isFalsy b.name = false ∧ isFalsy b.description = false ∧
        isFalsy b.price = false ∧ isFalsy b.category = false ∧
        (∃ s, b.name = .strV s ∧ jsStringTrim s ≠ "") ∧
        (∃ q, b.price = .numV q ∧ 0 < q)) := by
  unfold validateProductMiddleware
  split_ifs with h1 h2 h3
  · simp only [Bool.or_eq_true] at h1
    constructor
    · intro h; cases h
    · rintro ⟨hn, hd, hp, hc, -⟩
      rcases h1 with ((h | h) | h) | h
      · rw [h] at hn; cases hn
      · rw [h] at hd; cases hd
      · rw [h] at hp; cases hp
      · rw [h] at hc; cases hc
  · constructor
    · intro h; cases h
    · rintro ⟨-, -, -, -, ⟨s, hs, hst⟩, -⟩
      rw [hs] at h2
      simp only [beq_iff_eq, strLength_eq_zero_iff] at h2
      exact absurd h2 hst
  · constructor
    · intro h; cases h
    · rintro ⟨-, -, -, -, -, ⟨q, hq, hq0⟩⟩
      rw [hq] at h3
      simp only [decide_eq_true_eq] at h3
      exact absurd h3 (not_le.mpr hq0)
  · simp only [Bool.or_eq_true, not_or] at h1
    obtain ⟨⟨⟨hn, hd⟩, hp⟩, hc⟩ := h1
    refine ⟨fun _ => ⟨by simpa using hn, by simpa using hd, by simpa using hp,
      by simpa using hc, ?_, ?_⟩, fun _ => rfl⟩
    · cases hb : b.name with
      | strV s =>
        refine ⟨s, rfl, ?_⟩
        rw [hb] at h2
        simpa [strLength_eq_zero_iff] using h2
      | undefined => rw [hb] at h2; simp at h2
      | null => rw [hb] at h2; simp at h2
      | boolV x => rw [hb] at h2; simp at h2
      | numV x => rw [hb] at h2; simp at h2
    · cases hb : b.price with
      | numV q =>
        refine ⟨q, rfl, ?_⟩
        rw [hb] at h3
        simpa [not_le] using h3
      | undefined => rw [hb] at h3; simp at h3
      | null => rw [hb] at h3; simp at h3
      | boolV x => rw [hb] at h3; simp at h3
      | strV x => rw [hb] at h3; simp at h3

/-- The middleware either passes the body through or throws a
`ValidationError`. -/
lemma validate_cases (b : Body) :
    validateProductMiddleware b = .ok b ∨
      ∃ m, validateProductMiddleware b = .error (validationError m) := by
  unfold validateProductMiddleware
  split_ifs <;> simp

/-- The predicate the category filter keeps (vacuously true when the
parameter is absent or empty). -/
def catPred (qc : Option String) (p : Product) : Bool :=
  match qc with
  | none => true
  | some c => if c = "" then true else p.category.toLower == c.toLower

/-- The predicate the inStock filter keeps. -/
def stockPred (qs : Option String) (p : Product) : Bool :=
  match qs with
  | none => true
  | some s => if s = "" then true else p.inStock == (s.toLower == "true")

/-- The predicate the search filter keeps. -/
def searchPred (qs : Option String) (p : Product) : Bool :=
  match qs with
  | none => true
  | some s => if s = "" then true else strIncludes p.name.toLower s.toLower

lemma categoryFilter_eq_filter (qc : Option String) (l : List Product) :
    categoryFilter qc l = l.filter (catPred qc) := by
  cases qc with
  | none => exact (List.filter_true l).symm
  | some c =>
    by_cases hc : c = ""
    · simp only [categoryFilter, if_pos hc]
      exact ((List.filter_congr fun p _ => by simp [catPred, hc]).trans
        (List.filter_true l)).symm
    · simp only [categoryFilter, if_neg hc]
      exact (List.filter_congr fun p _ => by simp [catPred, hc]).symm

lemma inStockFilter_eq_filter (qs : Option String) (l : List Product) :
    inStockFilter qs l = l.filter (stockPred qs) := by
  cases qs with
  | none => exact (List.filter_true l).symm
  | some s =>
    by_cases hs : s = ""
    · simp only [inStockFilter, if_pos hs]
      exact ((List.filter_congr fun p _ => by simp [stockPred, hs]).trans
        (List.filter_true l)).symm
    · simp only [inStockFilter, if_neg hs]
      exact (List.filter_congr fun p _ => by simp [stockPred, hs]).symm

lemma searchFilter_eq_filter (qs : Option String) (l : List Product) :
    searchFilter qs l = l.filter (searchPred qs) := by
  cases qs with
  | none => exact (List.filter_true l).symm
  | some s =>
    by_cases hs : s = ""
    · simp only [searchFilter, if_pos hs]
      exact ((List.filter_congr fun p _ => by simp [searchPred, hs]).trans
        (List.filter_true l)).symm
    · simp only [searchFilter, if_neg hs]
      exact (List.filter_congr fun p _ => by simp [searchPred, hs]).symm

lemma min_take {α : Type} (l : List α) (n : Nat) :
    l.take (min n l.length) = l.take n := by
  rcases Nat.le_total n l.length with h | h
  · rw [Nat.min_eq_left h]
  · rw [Nat.min_eq_right h, List.take_length, List.take_of_length_le h]

lemma jsSlice_nonneg {α : Type} (l : List α) (s e : Int)
    (hs : 0 ≤ s) (he : 0 ≤ e) :
    jsSlice l s e = (l.take e.toNat).drop s.toNat := by
  unfold jsSlice jsSliceBound
  rw [if_neg (not_lt.mpr hs), if_neg (not_lt.mpr he), min_take]
  rcases Nat.le_total s.toNat l.length with h | h
  · rw [Nat.min_eq_left h]
  · have hlen : (l.take e.toNat).length ≤ l.length := by
      rw [List.length_take]; exact Nat.min_le_right _ _
    rw [Nat.min_eq_right h, List.drop_eq_nil_of_le hlen,
      List.drop_eq_nil_of_le (le_trans hlen h)]

/-- `Math.ceil(N / L)` for naturals with positive `L` is natural
ceiling division `(N + L - 1) / L`. -/
lemma ceil_div_eq_natCeilDiv (N L : ℕ) (hL : 0 < L) :
    ⌈(N : ℚ) / (L : ℚ)⌉ = (((N + L - 1) / L : ℕ) : ℤ) := by
  have hLQ : (0 : ℚ) < (L : ℚ) := by exact_mod_cast hL
  have hK : (N + L - 1) + 1 = N + L := by omega
  have h1 : L * ((N + L - 1) / L) + (N + L - 1) % L = N + L - 1 :=
    Nat.div_add_mod _ _
  have h2 : (N + L - 1) % L < L := Nat.mod_lt _ hL
  have h1q : (L : ℚ) * (((N + L - 1) / L : ℕ) : ℚ) + (((N + L - 1) % L : ℕ) : ℚ) + 1 =
      (N : ℚ) + (L : ℚ) := by
    exact_mod_cast congrArg (Nat.cast (R := ℚ)) (h1.symm ▸ hK)
  have h2q : (((N + L - 1) % L : ℕ) : ℚ) + 1 ≤ (L : ℚ) := by exact_mod_cast h2
  have h0q : (0 : ℚ) ≤ (((N + L - 1) % L : ℕ) : ℚ) := by positivity
  rw [Int.ceil_eq_iff]
  constructor
  · rw [lt_div_iff₀ hLQ, Int.cast_natCast]
    nlinarith [h1q, h2q, h0q]
  · rw [div_le_iff₀ hLQ, Int.cast_natCast]
    nlinarith [h1q, h2q, h0q]

/-- The first index found by `findIdx` in a list split around its first
match. -/
lemma findIdx_first_match (pre post : List Product) (r : Product) (pid : String)
    (hr : r.id = pid) (hpre : ∀ p ∈ pre, p.id ≠ pid) :
    (pre ++ r :: post).findIdx (fun p => p.id == pid) = pre.length := by
  induction pre with
  | nil => simp [List.findIdx_cons, hr]
  | cons a as ih =>
    have ha : (a.id == pid) = false :=
      beq_eq_false_iff_ne.mpr (hpre a (List.mem_cons_self a as))
    simp only [List.cons_append, List.findIdx_cons, ha, cond_false, List.length_cons]
    rw [ih fun p hp => hpre p (List.mem_cons_of_mem a hp)]

/-- Summing prices with the handler's `reduce` equals the sum of the mapped
price list. -/
lemma foldl_price_sum (l : List Product) (a : ℚ) :
    l.foldl (fun s p => s + p.price) a = a + (l.map (fun p => p.price)).sum := by
  induction l generalizing a with
  | nil => simp
  | cons p t ih => simp [ih, add_assoc]

/-- Bumping a category key in the mapped form: only the first `c2` entry is
consulted by `categoriesCount`, and its key is unchanged by the bump. -/
lemma categoriesCount_map_bump (t : List (String × Nat)) (c c2 : String) :
    categoriesCount (t.map (fun kv => if kv.1 == c then (kv.1, kv.2 + 1) else kv)) c2 =
      categoriesCount t c2 +
        (if c2 = c ∧ (t.find? (fun kv => kv.1 == c2)).isSome then 1 else 0) := by
  induction t with
  | nil => simp [categoriesCount]
  | cons kv t ih =>
    by_cases h2 : (kv.1 == c2) = true
    · have hkey : ((if kv.1 == c then (kv.1, kv.2 + 1) else kv).1 == c2) = true := by
        by_cases hc : (kv.1 == c) = true <;> simp_all
      simp only [List.map_cons, categoriesCount, List.find?_cons, hkey, h2]
      have hc2 : c2 = kv.1 := (beq_iff_eq.mp h2).symm
      by_cases hc : (kv.1 == c) = true
      · have : c2 = c := hc2.trans (beq_iff_eq.mp hc)
        simp [hc, this]
      · have hkc : kv.1 ≠ c := by simpa using hc
        have hne : ¬(c2 = c) := by
          intro hq
          exact hkc (by rw [← hc2, hq])
        rw [if_neg hc, if_neg (fun hq => hne hq.1)]
        simp
    · have h2f : (kv.1 == c2) = false := by simpa using h2
      have hkey : ((if kv.1 == c then (kv.1, kv.2 + 1) else kv).1 == c2) = false := by
        by_cases hc : (kv.1 == c) = true <;> simp_all
      simp only [List.map_cons, categoriesCount, List.find?_cons, hkey, h2f] at ih ⊢
      exact ih

/-- Effect of one `bumpCategory` step on a single key's count. -/
lemma categoriesCount_bump (m : List (String × Nat)) (c c2 : String) :
    categoriesCount (bumpCategory m c) c2 =
      categoriesCount m c2 + (if c2 = c then 1 else 0) := by
  unfold bumpCategory
  by_cases ha : m.any (fun kv => kv.1 == c) = true
  · rw [if_pos ha, categoriesCount_map_bump]
    by_cases hc : c2 = c
    · subst hc
      have : (m.find? (fun kv => kv.1 == c2)).isSome := by
        rw [List.find?_isSome]
        simpa [List.any_eq_true] using ha
      simp [this]
    · simp [hc]
  · rw [if_neg ha]
    have hnone : m.find? (fun kv => kv.1 == c) = none := by
      rw [List.find?_eq_none]
      intro kv hkv
      by_contra hq
      refine ha (List.any_eq_true.mpr ⟨kv, hkv, by simpa using hq⟩)
    by_cases hc : c2 = c
    · subst hc
      simp only [categoriesCount, List.find?_append, hnone, Option.none_or,
        List.find?_cons, beq_self_eq_true]
      simp [hnone, categoriesCount]
    · have : ((c == c2) : Bool) = false := by
        simp only [beq_eq_false_iff_ne]
        exact fun hq => hc hq.symm
      simp only [categoriesCount, List.find?_append, List.find?_cons, this]
      simp [hc, Option.or_none]

/-- Count of a category after folding the whole store. -/
lemma categoriesCount_foldl (l : List Product) (m : List (String × Nat)) (c : String) :
    categoriesCount (l.foldl (fun acc p => bumpCategory acc p.category) m) c =
      categoriesCount m c + (l.filter (fun p => p.category == c)).length := by
  induction l generalizing m with
  | nil => simp
  | cons p t ih =>
    simp only [List.foldl_cons, List.filter_cons]
    rw [ih, categoriesCount_bump]
    by_cases h : (p.category == c) = true
    · have hcp : c = p.category := (beq_iff_eq.mp h).symm
      simp [h, if_pos hcp]
      omega
    · have hcp : ¬(c = p.category) := by
        intro hq
        exact absurd (beq_iff_eq.mpr hq.symm) h
      simp [h, if_neg hcp]

lemma inStockValue_eq (v : JSValue) (d : Bool) :
    inStockValue v d = if v = JSValue.undefined then d else jsToBool v := by
  cases v <;> rfl

lemma set_get_self {α : Type} (l : List α) (n : Nat) (h : n < l.length) :
    l.set n (l.get ⟨n, h⟩) = l := by
  induction l generalizing n with
  | nil => rfl
  | cons a t ih =>
    cases n with
    | zero => rfl
    | succ m =>
      simp only [List.set_cons_succ, List.cons.injEq, true_and]
      exact ih m (by simpa using h)

/-- The price field of a body that passed validation is a positive number. -/
lemma validate_ok_price (b : Body) (hv : validateProductMiddleware b = .ok b) :
    ∃ q, b.price = .numV q ∧ 0 < q :=
  ((validate_ok_iff b).mp hv).2.2.2.2.2

/-! ## Claims -/

/-- C2: the validation middleware signals a ValidationError (status 400) iff
one of `name`, `description`, `price`, `category` is falsy, or `name` is not
a string with non-empty trimmed form, or `price` is not a number strictly
greater than zero; when it passes, the request body is unchanged. -/
theorem validation_middleware_spec (b : Body) :
    ((∃ e, validateProductMiddleware b = .error e ∧ e.ename = "ValidationError" ∧
        e.statusCode = some 400) ↔
      (isFalsy b.name = true ∨ isFalsy b.description = true ∨
        isFalsy b.price = true ∨ isFalsy b.category = true ∨
        (¬ ∃ s, b.name = .strV s ∧ jsStringTrim s ≠ "") ∨
        (¬ ∃ q, b.price = .numV q ∧ 0 < q))) ∧
    (∀ b2, validateProductMiddleware b = .ok b2 → b2 = b) := by
  have hcases := validate_cases b
  have hiff := validate_ok_iff b
  constructor
  · constructor
    · rintro ⟨e, he, -, -⟩
      by_contra hno
      push_neg at hno
      obtain ⟨h1, h2, h3, h4, h5, h6⟩ := hno
      have hok : validateProductMiddleware b = .ok b := by
        rw [hiff]
        exact ⟨Bool.not_eq_true _ ▸ h1, Bool.not_eq_true _ ▸ h2,
          Bool.not_eq_true _ ▸ h3, Bool.not_eq_true _ ▸ h4, h5, h6⟩
      rw [hok] at he
      cases he
    · intro h
      rcases hcases with hok | ⟨m, herr⟩
      · exfalso
        rw [hiff] at hok
        obtain ⟨h1, h2, h3, h4, h5, h6⟩ := hok
        rcases h with h | h | h | h | h | h <;> simp_all
      · exact ⟨validationError m, herr, rfl, rfl⟩
  · intro b2 h
    rcases hcases with hok | ⟨m, herr⟩
    · rw [hok] at h; cases h; rfl
    · rw [herr] at h; cases h

/-- Witness for C2: a body whose price is the falsy number 0 is rejected
with a 400 ValidationError. -/
theorem validation_middleware_spec_witness :
    ∃ e, validateProductMiddleware
        ⟨.strV "Widget", .strV "A widget", .numV 0, .strV "tools", .undefined⟩ = .error e ∧
      e.ename = "ValidationError" ∧ e.statusCode = some 400 :=
  (validation_middleware_spec
    ⟨.strV "Widget", .strV "A widget", .numV 0, .strV "tools", .undefined⟩).1.mpr
    (Or.inr (Or.inr (Or.inl (by decide))))

/-- C4: the pre-pagination filtered set membership-equals the intersection of
the three individual filters' match sets, and the sequential composition is
independent of the order the filters are applied in. -/
theorem filter_intersection_spec (store : List Product) (q : ListQuery) :
    (∀ p, p ∈ filteredSet store q ↔
        p ∈ categoryFilter q.category store ∧ p ∈ inStockFilter q.inStock store ∧
          p ∈ searchFilter q.search store) ∧
    filteredSet store q =
      categoryFilter q.category (inStockFilter q.inStock (searchFilter q.search store)) ∧
    filteredSet store q =
      categoryFilter q.category (searchFilter q.search (inStockFilter q.inStock store)) ∧
    filteredSet store q =
      inStockFilter q.inStock (categoryFilter q.category (searchFilter q.search store)) ∧
    filteredSet store q =
      inStockFilter q.inStock (searchFilter q.search (categoryFilter q.category store)) ∧
    filteredSet store q =
      searchFilter q.search (categoryFilter q.category (inStockFilter q.inStock store)) := by
  simp only [filteredSet, categoryFilter_eq_filter, inStockFilter_eq_filter,
    searchFilter_eq_filter, List.filter_filter]
  refine ⟨?_, ?_, ?_, ?_, ?_, ?_⟩
  · intro p
    simp only [List.mem_filter, Bool.and_eq_true]
    tauto
  all_goals
  refine List.filter_congr fun x _ => ?_
  cases catPred q.category x <;> cases stockPred q.inStock x <;>
    cases searchPred q.search x <;> rfl

/-- C3: with positive integer query parameters `page = P` and `limit = L` and
`N` filtered products, the list handler reports `count = N`,
`totalPages = ceil(N/L)`, `hasNext` iff `P*L < N`, `hasPrev` iff
`(P-1)*L > 0`, and returns the slice of the filtered list from index
`(P-1)*L` up to (but excluding) `P*L`. -/
theorem pagination_spec (store : List Product) (q : ListQuery) (P L : ℕ)
    (hp : q.page = some (P : ℤ)) (hl : q.limit = some (L : ℤ))
    (hP : 0 < P) (hL : 0 < L) :
    (listHandler store q).count = (filteredSet store q).length ∧
    (listHandler store q).totalPages =
      ((((filteredSet store q).length + L - 1) / L : ℕ) : ℤ) ∧
    ((listHandler store q).hasNext = true ↔ P * L < (filteredSet store q).length) ∧
    ((listHandler store q).hasPrev = true ↔ 0 < (P - 1) * L) ∧
    (listHandler store q).data =
      ((filteredSet store q).take (P * L)).drop ((P - 1) * L) := by
  have hpage : jsOrDefault q.page 1 = (P : ℤ) := by
    rw [hp]
    simp only [jsOrDefault]
    rw [if_neg (by exact_mod_cast hP.ne')]
  have hlimit : jsOrDefault q.limit 10 = (L : ℤ) := by
    rw [hl]
    simp only [jsOrDefault]
    rw [if_neg (by exact_mod_cast hL.ne')]
  have hstart : ((P : ℤ) - 1) * (L : ℤ) = (((P - 1) * L : ℕ) : ℤ) := by
    push_cast [Nat.cast_sub (by omega : 1 ≤ P)]
    ring
  have hend : ((P : ℤ) - 1) * (L : ℤ) + (L : ℤ) = ((P * L : ℕ) : ℤ) := by
    push_cast
    ring
  refine ⟨rfl, ?_, ?_, ?_, ?_⟩
  · show ⌈((filteredSet store q).length : ℚ) / ((jsOrDefault q.limit 10 : ℤ) : ℚ)⌉ = _
    rw [hlimit, Int.cast_natCast]
    exact ceil_div_eq_natCeilDiv _ L hL
  · show decide ((jsOrDefault q.page 1 - 1) * jsOrDefault q.limit 10 +
        jsOrDefault q.limit 10 < ((filteredSet store q).length : ℤ)) = true ↔ _
    rw [hpage, hlimit, hend]
    simp only [decide_eq_true_eq]
    exact_mod_cast Iff.rfl
  · show decide ((jsOrDefault q.page 1 - 1) * jsOrDefault q.limit 10 > 0) = true ↔ _
    rw [hpage, hlimit, hstart]
    simp only [decide_eq_true_eq, gt_iff_lt]
    exact_mod_cast Iff.rfl
  · show jsSlice (filteredSet store q)
        ((jsOrDefault q.page 1 - 1) * jsOrDefault q.limit 10)
        ((jsOrDefault q.page 1 - 1) * jsOrDefault q.limit 10 +
          jsOrDefault q.limit 10) = _
    rw [hpage, hlimit, hend, hstart,
      jsSlice_nonneg _ _ _ (Int.natCast_nonneg _) (Int.natCast_nonneg _),
      Int.toNat_natCast, Int.toNat_natCast]

/-- Witness for C3: the seeded store with `page=2`, `limit=2`. -/
theorem pagination_spec_witness :
    (listHandler products ⟨none, none, none, some 2, some 2⟩).count =
      (filteredSet products ⟨none, none, none, some 2, some 2⟩).length ∧
    (listHandler products ⟨none, none, none, some 2, some 2⟩).totalPages =
      ((((filteredSet products ⟨none, none, none, some 2, some 2⟩).length + 2 - 1) / 2 : ℕ) : ℤ) ∧
    ((listHandler products ⟨none, none, none, some 2, some 2⟩).hasNext = true ↔
      2 * 2 < (filteredSet products ⟨none, none, none, some 2, some 2⟩).length) ∧
    ((listHandler products ⟨none, none, none, some 2, some 2⟩).hasPrev = true ↔
      0 < (2 - 1) * 2) ∧
    (listHandler products ⟨none, none, none, some 2, some 2⟩).data =
      ((filteredSet products ⟨none, none, none, some 2, some 2⟩).take (2 * 2)).drop
        ((2 - 1) * 2) :=
  pagination_spec products ⟨none, none, none, some 2, some 2⟩ 2 2
    (by norm_num) (by norm_num) (by norm_num) (by norm_num)

/-- C7: the delete handler removes exactly the first record whose id matches,
keeping remaining records in order, and responds 200 with a success message
and no data; when no record matches it signals NotFoundError (404) with
"Product not found" and leaves the store unchanged. -/
theorem delete_spec (store : List Product) (pid : String) :
    ((∀ p ∈ store, p.id ≠ pid) →
      deleteProduct pid store = (.err (notFoundError "Product not found"), store)) ∧
    (∀ pre r post, store = pre ++ r :: post → r.id = pid →
      (∀ p ∈ pre, p.id ≠ pid) →
      deleteProduct pid store = (.ok 200 "Product deleted successfully", pre ++ post)) := by
  constructor
  · intro h
    have hidx : store.findIdx (fun p => p.id == pid) = store.length :=
      List.findIdx_eq_length.mpr fun x hx => beq_eq_false_iff_ne.mpr (h x hx)
    unfold deleteProduct
    rw [if_neg (by rw [hidx]; exact lt_irrefl _)]
  · intro pre r post hsplit hr hpre
    subst hsplit
    have hidx : (pre ++ r :: post).findIdx (fun p => p.id == pid) = pre.length :=
      findIdx_first_match pre post r pid hr hpre
    have hlt : pre.length < (pre ++ r :: post).length := by
      simp [List.length_append]
    unfold deleteProduct
    rw [hidx, if_pos hlt, List.eraseIdx_append_of_length_le (le_refl _),
      Nat.sub_self, List.eraseIdx_cons_zero]

/-- Witness for C7: deleting an id absent from the seeded store 404s and
leaves the store as it was. -/
theorem delete_spec_witness :
    deleteProduct "999" products = (.err (notFoundError "Product not found"), products) :=
  (delete_spec products "999").1 (by decide)

/-- C8: the stats handler reports the total, in-stock and out-of-stock
counts, a per-category count mapping, the maximal and minimal price and the
arithmetic mean of the prices (the empty-store division is the unguarded
`sum / 0`); on the seeded store it yields totalProducts 3, the category
counts electronics 2 and kitchen 1, and average exactly 2050/3. -/
theorem stats_spec (store : List Product) :
    (productStats store).totalProducts = store.length ∧
    (productStats store).totalInStock = (store.filter (fun p => p.inStock)).length ∧
    (productStats store).totalOutOfStock = (store.filter (fun p => !p.inStock)).length ∧
    (∀ c, categoriesCount (productStats store).categories c =
      (store.filter (fun p => p.category == c)).length) ∧
    (productStats store).priceStats.average =
      (store.map (fun p => p.price)).sum / (store.length : ℚ) ∧
    (∀ m, (productStats store).priceStats.highest = some m →
      m ∈ store.map (fun p => p.price) ∧ ∀ x ∈ store.map (fun p => p.price), x ≤ m) ∧
    (∀ m, (productStats store).priceStats.lowest = some m →
      m ∈ store.map (fun p => p.price) ∧ ∀ x ∈ store.map (fun p => p.price), m ≤ x) ∧
    (store ≠ [] →
      (productStats store).priceStats.highest.isSome ∧
        (productStats store).priceStats.lowest.isSome) ∧
    (productStats products).totalProducts = 3 ∧
    (productStats products).categories = [("electronics", 2), ("kitchen", 1)] ∧
    (productStats products).priceStats.average = 2050 / 3 := by
  have anti : Std.Antisymm ((· : ℚ) ≤ ·) :=
    ⟨fun {a b} h1 h2 => le_antisymm h1 h2⟩
  refine ⟨rfl, rfl, rfl, ?_, ?_, ?_, ?_, ?_, rfl, rfl, ?_⟩
  · intro c
    have := categoriesCount_foldl store [] c
    simpa [categoriesCount] using this
  · show store.foldl (fun s p => s + p.price) 0 / (store.length : ℚ) = _
    rw [foldl_price_sum, zero_add]
  · intro m hm
    have := (List.max?_eq_some_iff (fun a => le_refl a) (fun a b => max_choice a b)
      (fun a b c => max_le_iff)).mp hm
    exact ⟨this.1, this.2⟩
  · intro m hm
    have := (List.min?_eq_some_iff (fun a => le_refl a) (fun a b => min_choice a b)
      (fun a b c => le_min_iff)).mp hm
    exact ⟨this.1, this.2⟩
  · intro hne
    have hmap : store.map (fun p => p.price) ≠ [] := by
      simpa using hne
    constructor
    · show ((store.map (fun p => p.price)).max?).isSome = true
      cases hx : (store.map (fun p => p.price)).max? with
      | none => exact absurd (List.max?_eq_none_iff.mp hx) hmap
      | some m => rfl
    · show ((store.map (fun p => p.price)).min?).isSome = true
      cases hx : (store.map (fun p => p.price)).min? with
      | none => exact absurd (List.min?_eq_none_iff.mp hx) hmap
      | some m => rfl
  · show products.foldl (fun s p => s + p.price) 0 / ((products.length : ℕ) : ℚ) =
      2050 / 3
    rw [foldl_price_sum, zero_add]
    norm_num [products]

/-- Witness for C8: the maximal seeded price is 1200, and it bounds every
seeded price. -/
theorem stats_spec_witness :
    1200 ∈ products.map (fun p => p.price) ∧
      ∀ x ∈ products.map (fun p => p.price), x ≤ 1200 :=
  (stats_spec products).2.2.2.2.2.1 1200 (by decide)

/-- C5 (amended: the payload's description and category must moreover be
strings — otherwise `.trim()` throws a TypeError): for every accepted such
payload and fresh generated id, create responds 201 with a record carrying
the fresh id (distinct from all pre-existing ids), the trimmed string
fields, the price, and the defaulted/coerced `inStock`; the record is
appended at the end and a subsequent get-by-id returns it. -/
theorem create_spec (store : List Product) (b : Body) (freshId : String)
    (nm ds ct : String)
    (hv : validateProductMiddleware b = .ok b)
    (hnm : b.name = .strV nm) (hds : b.description = .strV ds)
    (hct : b.category = .strV ct)
    (hfresh : freshId ∉ store.map Product.id) :
    ∃ p : Product,
      createProduct freshId b store = (.ok 201 p, store ++ [p]) ∧
      p.id = freshId ∧
      p.id ∉ store.map Product.id ∧
      p.name = jsStringTrim nm ∧ p.description = jsStringTrim ds ∧ p.category = jsStringTrim ct ∧
      p.price = jsNum b.price ∧
      p.inStock = (if b.inStock = JSValue.undefined then true else jsToBool b.inStock) ∧
      getProductById freshId (store ++ [p]) = .ok 200 p := by
  refine ⟨{ id := freshId, name := jsStringTrim nm, description := jsStringTrim ds,
            price := jsNum b.price, category := jsStringTrim ct,
            inStock := inStockValue b.inStock true }, ?_, rfl, hfresh, rfl, rfl, rfl, rfl,
          inStockValue_eq b.inStock true, ?_⟩
  · unfold createProduct
    rw [hnm, hds, hct]
    rfl
  · have hnone : store.find? (fun p => p.id == freshId) = none := by
      rw [List.find?_eq_none]
      intro x hx hq
      exact hfresh (beq_iff_eq.mp hq ▸ List.mem_map_of_mem Product.id hx)
    unfold getProductById
    rw [List.find?_append, hnone, Option.none_or, List.find?_cons_of_pos _ (by simp)]

/-- Witness for C5: creating a valid all-string payload on the seeded store. -/
theorem create_spec_witness :
    ∃ p : Product,
      createProduct "new-1"
          ⟨.strV " Mug ", .strV " A mug ", .numV 7, .strV " kitchen ", .undefined⟩
          products = (.ok 201 p, products ++ [p]) ∧
      p.id = "new-1" ∧
      p.id ∉ products.map Product.id ∧
      p.name = jsStringTrim " Mug " ∧ p.description = jsStringTrim " A mug " ∧
      p.category = jsStringTrim " kitchen " ∧
      p.price = jsNum (JSValue.numV 7) ∧
      p.inStock = (if JSValue.undefined = JSValue.undefined then true
                   else jsToBool JSValue.undefined) ∧
      getProductById "new-1" (products ++ [p]) = .ok 200 p :=
  create_spec products
    ⟨.strV " Mug ", .strV " A mug ", .numV 7, .strV " kitchen ", .undefined⟩
    "new-1" " Mug " " A mug " " kitchen " (by decide) rfl rfl rfl (by decide)

/-- Counterexample for C5 as stated: a payload whose description is the
truthy number 5 passes validation, yet the create handler throws a
TypeError (propagating as a 500, not a 201) and leaves the store unchanged. -/
theorem create_spec_counterexample :
    validateProductMiddleware
        ⟨.strV "Widget", .numV 5, .numV 10, .strV "tools", .undefined⟩ =
      .ok ⟨.strV "Widget", .numV 5, .numV 10, .strV "tools", .undefined⟩ ∧
    createProduct "fresh-id"
        ⟨.strV "Widget", .numV 5, .numV 10, .strV "tools", .undefined⟩ products =
      (.err (typeError "trim is not a function"), products) ∧
    (errorHandler (typeError "trim is not a function")).1 = 500 :=
  ⟨by decide, by decide, rfl⟩

/-- C6 (amended: the payload's description and category must moreover be
strings — otherwise `.trim()` throws a TypeError): update overwrites name,
description, price and category of the addressed record with the
trimmed/number inputs, keeps its id, changes `inStock` only when supplied,
leaves every other record and the length unchanged, and responds 200 with
the updated record; an absent id signals NotFoundError (404) with the store
unchanged. -/
theorem update_spec (store : List Product) (pid : String) (b : Body)
    (nm ds ct : String) (q : ℚ)
    (hv : validateProductMiddleware b = .ok b)
    (hnm : b.name = .strV nm) (hds : b.description = .strV ds)
    (hct : b.category = .strV ct) (hq : b.price = .numV q) :
    ((∀ p ∈ store, p.id ≠ pid) →
      updateProduct pid b store = (.err (notFoundError "Product not found"), store)) ∧
    (∀ idx (h : idx < store.length),
      store.findIdx (fun p => p.id == pid) = idx →
      ∃ r : Product,
        updateProduct pid b store = (.ok 200 r, store.set idx r) ∧
        r.id = (store.get ⟨idx, h⟩).id ∧
        r.name = jsStringTrim nm ∧ r.description = jsStringTrim ds ∧
        r.price = q ∧ r.category = jsStringTrim ct ∧
        r.inStock = (if b.inStock = JSValue.undefined
                     then (store.get ⟨idx, h⟩).inStock else jsToBool b.inStock) ∧
        (∀ j, j ≠ idx → (store.set idx r)[j]? = store[j]?) ∧
        (store.set idx r).length = store.length) := by
  constructor
  · intro h
    have hidx : store.findIdx (fun p => p.id == pid) = store.length :=
      List.findIdx_eq_length.mpr fun x hx => beq_eq_false_iff_ne.mpr (h x hx)
    unfold updateProduct
    rw [hidx, dif_neg (lt_irrefl _)]
  · intro idx h hidx
    refine ⟨{ store.get ⟨idx, h⟩ with
              name := jsStringTrim nm, description := jsStringTrim ds,
              price := jsNum b.price, category := jsStringTrim ct,
              inStock := inStockValue b.inStock (store.get ⟨idx, h⟩).inStock },
            ?_, rfl, rfl, rfl, by rw [hq]; rfl, rfl,
            inStockValue_eq b.inStock (store.get ⟨idx, h⟩).inStock, ?_, ?_⟩
    · unfold updateProduct
      rw [hidx, dif_pos h, hnm, hds, hct]
      rfl
    · intro j hj
      exact List.getElem?_set_ne (Ne.symm hj)
    · simp

/-- Witness for C6: updating seeded product "1" with a valid all-string
payload that omits `inStock`. -/
theorem update_spec_witness :
    ∃ r : Product,
      updateProduct "1"
          ⟨.strV " New ", .strV " nd ", .numV 5, .strV " cat ", .undefined⟩
          products = (.ok 200 r, products.set 0 r) ∧
      r.id = (products.get ⟨0, by decide⟩).id ∧
      r.name = jsStringTrim " New " ∧ r.description = jsStringTrim " nd " ∧
      r.price = 5 ∧ r.category = jsStringTrim " cat " ∧
      r.inStock = (if JSValue.undefined = JSValue.undefined
                   then (products.get ⟨0, by decide⟩).inStock
                   else jsToBool JSValue.undefined) ∧
      (∀ j, j ≠ 0 → (products.set 0 r)[j]? = products[j]?) ∧
      (products.set 0 r).length = products.length :=
  (update_spec products "1"
      ⟨.strV " New ", .strV " nd ", .numV 5, .strV " cat ", .undefined⟩
      " New " " nd " " cat " 5 (by decide) rfl rfl rfl rfl).2 0 (by decide) (by decide)

/-- Counterexample for C6 as stated: a payload whose description is the
boolean true passes validation, yet the update handler throws a TypeError
(propagating as a 500, not a 200) and leaves the store unchanged. -/
theorem update_spec_counterexample :
    validateProductMiddleware
        ⟨.strV "NewName", .boolV true, .numV 10, .strV "tools", .undefined⟩ =
      .ok ⟨.strV "NewName", .boolV true, .numV 10, .strV "tools", .undefined⟩ ∧
    updateProduct "1"
        ⟨.strV "NewName", .boolV true, .numV 10, .strV "tools", .undefined⟩ products =
      (.err (typeError "trim is not a function"), products) ∧
    (errorHandler (typeError "trim is not a function")).1 = 500 :=
  ⟨by decide, by decide, rfl⟩

lemma storeInv_create (s : List Product) (fid : String) (b : Body)
    (hv : validateProductMiddleware b = .ok b) (hfresh : fid ∉ s.map Product.id)
    (hInv : StoreInv s) : StoreInv (createProduct fid b s).2 := by
  obtain ⟨q, hq, hq0⟩ := validate_ok_price b hv
  unfold createProduct
  cases hn : jsTrim b.name with
  | error e => exact hInv
  | ok nm =>
    cases hd : jsTrim b.description with
    | error e => exact hInv
    | ok ds =>
      cases hc : jsTrim b.category with
      | error e => exact hInv
      | ok ct =>
        constructor
        · simp only [List.map_append, List.map_cons, List.map_nil]
          rw [List.nodup_append]
          refine ⟨hInv.1, List.nodup_singleton _, ?_⟩
          intro a ha hb
          rw [List.mem_singleton] at hb
          exact hfresh (hb ▸ ha)
        · intro p hp
          rcases List.mem_append.mp hp with hp | hp
          · exact hInv.2 p hp
          · rw [List.mem_singleton] at hp
            subst hp
            show 0 < jsNum b.price
            rw [hq]
            exact hq0

lemma storeInv_update (s : List Product) (pid : String) (b : Body)
    (hv : validateProductMiddleware b = .ok b)
    (hInv : StoreInv s) : StoreInv (updateProduct pid b s).2 := by
  obtain ⟨q, hq, hq0⟩ := validate_ok_price b hv
  unfold updateProduct
  by_cases h : s.findIdx (fun p => p.id == pid) < s.length
  · rw [dif_pos h]
    cases hn : jsTrim b.name with
    | error e => exact hInv
    | ok nm =>
      cases hd : jsTrim b.description with
      | error e => exact hInv
      | ok ds =>
        cases hc : jsTrim b.category with
        | error e => exact hInv
        | ok ct =>
          constructor
          · show ((s.set (s.findIdx fun p => p.id == pid) _).map Product.id).Nodup
            rw [List.map_set]
            have hid : (Product.id (s.get ⟨s.findIdx (fun p => p.id == pid), h⟩)) =
                (s.map Product.id).get ⟨s.findIdx (fun p => p.id == pid), by simpa using h⟩ := by
              simp [List.getElem_map]
            rw [show (({ s.get ⟨s.findIdx (fun p => p.id == pid), h⟩ with
                  name := nm, description := ds, price := jsNum b.price,
                  category := ct,
                  inStock := inStockValue b.inStock
                    (s.get ⟨s.findIdx (fun p => p.id == pid), h⟩).inStock } : Product).id) =
                Product.id (s.get ⟨s.findIdx (fun p => p.id == pid), h⟩) from rfl,
              hid, set_get_self]
            exact hInv.1
          · intro p hp
            rcases List.mem_or_eq_of_mem_set hp with hp | hp
            · exact hInv.2 p hp
            · subst hp
              show 0 < jsNum b.price
              rw [hq]
              exact hq0
  · rw [dif_neg h]
    exact hInv

lemma storeInv_delete (s : List Product) (pid : String)
    (hInv : StoreInv s) : StoreInv (deleteProduct pid s).2 := by
  unfold deleteProduct
  by_cases h : s.findIdx (fun p => p.id == pid) < s.length
  · rw [if_pos h]
    constructor
    · exact hInv.1.sublist ((List.eraseIdx_sublist s _).map Product.id)
    · intro p hp
      exact hInv.2 p ((List.eraseIdx_sublist s _).mem hp)
  · rw [if_neg h]
    exact hInv

lemma storeInv_step (s : List Product) (op : Op) (hop : opValid s op)
    (hInv : StoreInv s) : StoreInv (applyOp s op) := by
  cases op with
  | createOp fid b => exact storeInv_create s fid b hop.1 hop.2 hInv
  | updateOp pid b => exact storeInv_update s pid b hop hInv
  | deleteOp pid => exact storeInv_delete s pid hInv

/-- C1: starting from the seeded store, any sequence of create, update and
delete operations whose payloads passed the validation middleware (and whose
generated create ids are fresh, the uuid assumption) leaves a store with
pairwise distinct ids and strictly positive prices. -/
theorem store_invariant_spec (ops : List Op) (hops : opsValid products ops) :
    StoreInv (applyOps products ops) := by
  have seed : StoreInv products := by
    constructor
    · decide
    · decide
  have general : ∀ os s, StoreInv s → opsValid s os → StoreInv (applyOps s os) := by
    intro os
    induction os with
    | nil => intro s h _; exact h
    | cons op rest ih =>
      rintro s hInv ⟨hop, hrest⟩
      exact ih _ (storeInv_step s op hop hInv) hrest
  exact general ops products seed hops

/-- Witness for C1: one validated create with a fresh id on the seeded
store. -/
theorem store_invariant_spec_witness :
    StoreInv (applyOps products
      [Op.createOp "new-9" ⟨.strV "Pan", .strV "A pan", .numV 30, .strV "kitchen", .undefined⟩]) :=
  store_invariant_spec
    [Op.createOp "new-9" ⟨.strV "Pan", .strV "A pan", .numV 30, .strV "kitchen", .undefined⟩]
    ⟨⟨by decide, by decide⟩, trivial⟩

/-- C9: the catch-all handler's NotFoundError, translated by the centralized
error handler, yields status 404 and the JSON envelope
with success false and a message naming the unmatched path. -/
theorem unmatched_route_spec (url : String) :
    errorHandler (unmatchedRouteError url) =
      (404, ⟨false, "Route " ++ url ++ " not found"⟩) ∧
    strIncludes ("Route " ++ url ++ " not found") url = true := by
  refine ⟨rfl, ?_⟩
  unfold strIncludes
  have : ("Route " ++ url ++ " not found").toList =
      "Route ".toList ++ url.toList ++ " not found".toList := by
    simp [String.toList, String.data_append]
  rw [this]
  exact occursIn_append _ _ _

/-- C10: every read-only handler (list, search, stats, get-by-id) leaves the
product store unchanged. -/
theorem read_handlers_preserve_store (req : ReadRequest) (store : List Product) :
    (handleRead req store).2 = store := by
  cases req <;> rfl

end ProductsApi
